import Mathlib

/-!
# Verification of the trillek resource registry

A shallow embedding of the resource registry of trillek-client-core:
the reflection/type-tag facility (`getTypeID`, `getTypeName`), the
factory table (`Register`, `GetTypeIDFromName`) and the named-instance
store (`Create`, `CreateByID`, `Add`, `Get`, `ExistsRes`, `Remove`),
together with proofs of the registry's contract.

The headers `systems/ResourceSystem.h` and `resources/TextFile.h` are
not present under `src/` (only their test suite
`src/tests/tests/ResourceSystemTest.h` and their caller `src/main.cpp`
are), so the definitions below are modelled from the specification's
description of those components, as their doc comments state.

Shared handles (`std::shared_ptr`) are modelled by indices into a heap
of reference-counted cells: copying a handle increments the count,
dropping one decrements it, and the cell is destroyed when the count
reaches zero.  Two handles alias the same underlying object exactly
when they are the same index.
-/

set_option autoImplicit false

namespace Trillek

/-- Modelled from the spec: the value of a `Property` is "one of a closed
set of primitive kinds: boolean, integer, floating point, string — a
tagged union" (`Property.h` is missing from `src/`).  The floating-point
payload is represented by its bit pattern, which is all the registry
ever does with it (it never inspects property values). -/
inductive PropertyValue where
  | boolVal (b : Bool)
  | intVal (i : Int)
  | floatBits (bits : Nat)
  | strVal (s : String)
deriving DecidableEq, Repr

/-- Modelled from the spec: a `Property` is "a typed, named configuration
value passed to a resource at creation time" (`Property.h` is missing
from `src/`). -/
structure Property where
  name : String
  value : PropertyValue
deriving DecidableEq, Repr

/-- A type is identified in the model by its declared name, which the
spec says determines it uniquely ("name (string, unique per distinct
resource type, derived deterministically from the type)"). -/
abbrev TypeName := String

/-- The internal state of a concrete resource variant (for the text-file
variant: its buffered text). -/
abbrev ResState := String

/-- Association-list lookup with decidable key equality; the model of
`std::map::find`. -/
def alookup {α β : Type} [DecidableEq α] (k : α) : List (α × β) → Option β
  | [] => none
  | p :: rest => if p.1 = k then some p.2 else alookup k rest

/-! ## Reflection / type-tag facility -/

/-- Modelled from the spec: the process-wide state of the reflection
facility (its header is missing from `src/`): the next identifier to
issue and the ids already assigned, one per type.  The first identifier
issued is 1; the value 0 is the sentinel "no type" id and is never
assigned. -/
structure ReflectionState where
  nextID : Nat
  ids : List (TypeName × Nat)
deriving DecidableEq, Repr

/-- The reflection state at process start: no id assigned yet, the first
id to be issued is 1 (0 is the sentinel). -/
def initRefl : ReflectionState := ⟨1, []⟩

/-- Modelled from the spec: `GetTypeID<T>()` — "the first call for a
given T performs the one-time assignment, subsequent calls are pure
reads".  Returns the id together with the (possibly updated)
process-wide reflection state. -/
def getTypeID (t : TypeName) (s : ReflectionState) : Nat × ReflectionState :=
  match alookup t s.ids with
  | some i => (i, s)
  | none => (s.nextID, ⟨s.nextID + 1, (t, s.nextID) :: s.ids⟩)

/-- Modelled from the spec: `GetTypeName<T>()` — "returns a deterministic
string for T, independent of call order"; in the model a type is its
declared name. -/
def getTypeName (t : TypeName) : String := t

/-- The assigned-ids table has pairwise distinct keys and pairwise
distinct values. -/
def idsOK : List (TypeName × Nat) → Bool
  | [] => true
  | p :: rest => rest.all (fun q => p.1 != q.1 && p.2 != q.2) && idsOK rest

/-- Well-formedness of the reflection state: the next id is positive,
every assigned id is positive and below the next id, and the assignment
is injective in both directions.  Holds at `initRefl` and is preserved
by `getTypeID`. -/
def reflWF (s : ReflectionState) : Bool :=
  decide (0 < s.nextID) &&
    s.ids.all (fun p => decide (0 < p.2) && decide (p.2 < s.nextID)) &&
    idsOK s.ids

/-! ## Shared-ownership heap -/

/-- A heap cell: one reference-counted resource object.  `refCount` is
the number of live strong references; `state` is the resource's internal
state (for the text-file variant, its buffered text). -/
structure Cell where
  refCount : Nat
  state : ResState
deriving DecidableEq, Repr

/-- Apply `f` to the cell at index `n`, leaving the rest of the heap
unchanged. -/
def modifyAt (f : Cell → Cell) : Nat → List Cell → List Cell
  | _, [] => []
  | 0, c :: rest => f c :: rest
  | n + 1, c :: rest => c :: modifyAt f n rest

/-- Copying a shared handle to cell `h`: one more strong reference. -/
def incRef (h : Nat) (heap : List Cell) : List Cell :=
  modifyAt (fun c => { c with refCount := c.refCount + 1 }) h heap

/-- Dropping a shared handle to cell `h`: one fewer strong reference;
the cell is destroyed when the count reaches zero. -/
def decRef (h : Nat) (heap : List Cell) : List Cell :=
  modifyAt (fun c => { c with refCount := c.refCount - 1 }) h heap

/-! ## The resource registry -/

/-- Modelled from the spec: the type-erased constructor behaviour of the
registered concrete resource types (`resources/TextFile.h` and the other
concrete variants are missing from `src/`): for a type name and a
property sequence, either the internal state of a freshly
default-constructed, successfully `Initialize`d instance, or `none` when
`Initialize` fails. -/
abbrev Env : Type := TypeName → List Property → Option ResState

/-- Modelled from the spec: the state of the `ResourceSystem` singleton
(`systems/ResourceSystem.h` is missing from `src/`): the reflection
state it consults, the factory table `factories` (type id ↦ registered
type), the named-instance store `instances` (name ↦ handle), and the
heap of shared cells the handles point into. -/
structure ResourceSystem where
  refl : ReflectionState
  factories : List (Nat × TypeName)
  instances : List (String × Nat)
  heap : List Cell
deriving DecidableEq, Repr

/-- The registry at process start: empty factory table, empty
named-instance store, initial reflection state. -/
def initSystem : ResourceSystem := ⟨initRefl, [], [], []⟩

namespace ResourceSystem

/-- Modelled from the spec: `Exists(name)` — "presence check by name
only, independent of type". -/
def ExistsRes (name : String) (sys : ResourceSystem) : Bool :=
  (alookup name sys.instances).isSome

/-- Modelled from the spec: `Get<T>(name)` — "returns the stored
instance reinterpreted as T if present, else null/empty.  Does not
construct."  Returning a shared handle copies it, so the hit path adds
a strong reference; the reinterpretation (a static pointer cast) does
not change the underlying object, so the returned handle is the stored
index itself. -/
def Get (name : String) (sys : ResourceSystem) :
    Option Nat × ResourceSystem :=
  match alookup name sys.instances with
  | none => (none, sys)
  | some h => (some h, { sys with heap := incRef h sys.heap })

/-- Modelled from the spec: `Create<T>(name, properties)` — if `name`
already exists, return the existing entry with no new construction and
no re-initialization; otherwise default-construct a fresh `T` and call
`Initialize(properties)`: on failure publish nothing and return null, on
success publish under `name` and return the shared handle.  A fresh
cell starts with two strong references: the registry's entry and the
returned handle. -/
def Create (env : Env) (t : TypeName) (name : String)
    (props : List Property) (sys : ResourceSystem) :
    Option Nat × ResourceSystem :=
  match alookup name sys.instances with
  | some h => (some h, { sys with heap := incRef h sys.heap })
  | none =>
    match env t props with
    | none => (none, sys)
    | some st =>
      let h := sys.heap.length
      (some h, { sys with
        instances := (name, h) :: sys.instances,
        heap := sys.heap ++ [⟨2, st⟩] })

/-- Modelled from the spec: the runtime-typed
`Create(typeId, name, properties)` — "type is resolved via typeId
against the factory table first"; an id absent from the table (including
the sentinel) fails before any allocation attempt, otherwise the call
dispatches through the type-erased constructor, behaving identically to
the compile-time path. -/
def CreateByID (env : Env) (tid : Nat) (name : String)
    (props : List Property) (sys : ResourceSystem) :
    Option Nat × ResourceSystem :=
  match alookup tid sys.factories with
  | none => (none, sys)
  | some t => Create env t name props sys

/-- Modelled from the spec: `Register<T>()` — "stores a constructor for
T keyed by GetTypeID<T>(); registering the same T twice is a no-op". -/
def Register (t : TypeName) (sys : ResourceSystem) : ResourceSystem :=
  let tid := (getTypeID t sys.refl).fst
  let r2 := (getTypeID t sys.refl).snd
  if (alookup tid sys.factories).isSome then { sys with refl := r2 }
  else { sys with refl := r2, factories := (tid, t) :: sys.factories }

/-- Modelled from the spec: `GetTypeIDFromName(name)` — "looks up the id
previously associated via registration by matching the stored type
name; fails (signals not found, e.g. a sentinel/invalid id) if no type
with that name was ever registered."  The sentinel is 0. -/
def GetTypeIDFromName (nm : String) (sys : ResourceSystem) : Nat :=
  match sys.factories.find? (fun p => getTypeName p.2 == nm) with
  | some p => p.1
  | none => 0

/-- Modelled from the spec: `Add<T>(name, handle)` — "publishes an
already-constructed, already-initialized shared handle under name,
taking a strong reference (shares ownership with the caller rather than
transferring it)."  The spec leaves overwrite of an existing name open;
the model replaces, which the claims never rely on. -/
def Add (name : String) (h : Nat) (sys : ResourceSystem) : ResourceSystem :=
  { sys with
    instances := (name, h) :: sys.instances.filter (fun p => p.1 != name),
    heap := incRef h sys.heap }

/-- Modelled from the spec: `Remove(name)` — "erases the named entry,
releasing the registry's strong reference; … Removing a non-existent
name is a no-op, not an error." -/
def Remove (name : String) (sys : ResourceSystem) : ResourceSystem :=
  match alookup name sys.instances with
  | none => sys
  | some h =>
    { sys with
      instances := sys.instances.filter (fun p => p.1 != name),
      heap := decRef h sys.heap }

end ResourceSystem

/-- Dropping an external strong reference to cell `h` (the caller's
`shared_ptr::reset`); touches only the reference count, never the
registry's maps. -/
def releaseHandle (h : Nat) (sys : ResourceSystem) : ResourceSystem :=
  { sys with heap := decRef h sys.heap }

/-- Modelled from the spec: a mutation through a live handle — the
text-file variant's `AppendText`, appending to the buffered text of the
underlying object. -/
def appendText (h : Nat) (str : String) (sys : ResourceSystem) :
    ResourceSystem :=
  { sys with
    heap := modifyAt (fun c => { c with state := c.state ++ str }) h sys.heap }

/-- Modelled from the spec: observing a resource through a handle — the
text-file variant's `GetText`, reading the buffered text of the
underlying object. -/
def getText (h : Nat) (sys : ResourceSystem) : Option ResState :=
  (sys.heap[h]?).map (fun c => c.state)

/-- The object behind handle `h` is still alive: its cell exists and at
least one strong reference remains. -/
def cellAlive (h : Nat) (sys : ResourceSystem) : Bool :=
  match sys.heap[h]? with
  | some c => decide (0 < c.refCount)
  | none => false

/-- Registry well-formedness: the reflection state is well-formed and
every factory entry is keyed by the id the reflection facility assigned
to its type — factory entries are created only by `Register`, which
keys the entry by `GetTypeID` of the registered type. -/
def regWF (sys : ResourceSystem) : Bool :=
  reflWF sys.refl &&
    sys.factories.all (fun p => alookup p.2 sys.refl.ids == some p.1)

/-! ## The text-file resource and the concrete test fixtures -/

/-- Look up the first property with the given name; the model of
scanning the property sequence. -/
def findProp (nm : String) : List Property → Option PropertyValue
  | [] => none
  | p :: rest => if p.name = nm then some p.value else findProp nm rest

/-- Modelled from the spec: the `Initialize` behaviour of the text-file
resource (`resources/TextFile.h` is missing from `src/`): read the
`filename` property, load the backing file's bytes into the buffered
text, and fail when the file cannot be opened.  `fs` is the file system,
mapping file names to contents. -/
def textFileInit (fs : String → Option String) (props : List Property) :
    Option ResState :=
  match findProp "filename" props with
  | some (PropertyValue.strVal fn) => fs fn
  | _ => none

/-- The file system of the test suite: `test.txt` exists,
`bad_test.txt` does not. -/
def testFS : String → Option String :=
  fun fn => if fn = "test.txt" then some "sample text" else none

/-- The environment of the test suite: the one concrete resource type is
`TextFile`. -/
def testEnv : Env :=
  fun t props => if t = "TextFile" then textFileInit testFS props else none

/-- The property list of the passing tests:
`filename = "test.txt"`. -/
def propsGood : List Property :=
  [⟨"filename", PropertyValue.strVal "test.txt"⟩]

/-- The property list of the failing-create test:
`filename = "bad_test.txt"`. -/
def propsBad : List Property :=
  [⟨"filename", PropertyValue.strVal "bad_test.txt"⟩]

/-- The registry of the test suite after `Register<TextFile>()`. -/
def testSystem : ResourceSystem := ResourceSystem.Register "TextFile" initSystem

/-- The registry of the test suite after the first successful
`Create<TextFile>("test", propsGood)`. -/
def testSystem1 : ResourceSystem :=
  (ResourceSystem.Create testEnv "TextFile" "test" propsGood testSystem).snd

/-- The cell of the test `AddFromMemory`: a text file constructed and
initialized by the caller itself, held through one strong reference. -/
def addedFile : Cell := ⟨1, "sample text"⟩

/-- The registry of the `AddFromMemory` / `ModifyInMemory` tests just
before `Add`: nothing published, the caller's file on the heap. -/
def memSystem : ResourceSystem := ⟨initRefl, [], [], [addedFile]⟩

/-- The registry after `Add<TextFile>("test", file)` followed by the
caller dropping its own handle (`file.reset()`). -/
def memSystem2 : ResourceSystem :=
  releaseHandle 0 (ResourceSystem.Add "test" 0 memSystem)

/-! ## Lemmas about `alookup` -/

theorem alookup_nil {α β : Type} [DecidableEq α] (k : α) :
    alookup (β := β) k [] = none := rfl

@[simp] theorem alookup_cons_self {α β : Type} [DecidableEq α]
    (k : α) (v : β) (l : List (α × β)) :
    alookup k ((k, v) :: l) = some v := by
  simp [alookup]

theorem alookup_cons_ne {α β : Type} [DecidableEq α]
    (k a : α) (v : β) (l : List (α × β)) (h : a ≠ k) :
    alookup k ((a, v) :: l) = alookup k l := by
  simp [alookup, h]

theorem alookup_mem {α β : Type} [DecidableEq α]
    {k : α} {v : β} :
    ∀ {l : List (α × β)}, alookup k l = some v → (k, v) ∈ l := by
  intro l
  induction l with
  | nil => intro h; simp [alookup] at h
  | cons p rest ih =>
    intro h
    by_cases hk : p.1 = k
    · subst hk
      rw [show p = (p.1, p.2) from rfl, alookup_cons_self] at h
      cases h
      simp
    · rw [show p = (p.1, p.2) from rfl, alookup_cons_ne _ _ _ _ hk] at h
      exact List.mem_cons_of_mem _ (ih h)

theorem alookup_eq_none {α β : Type} [DecidableEq α] {k : α} :
    ∀ {l : List (α × β)}, alookup k l = none → ∀ p ∈ l, p.1 ≠ k := by
  intro l
  induction l with
  | nil => intro _ p hp; cases hp
  | cons q rest ih =>
    intro h p hp
    by_cases hk : q.1 = k
    · rw [show q = (q.1, q.2) from rfl, hk, alookup_cons_self] at h
      cases h
    · rw [show q = (q.1, q.2) from rfl, alookup_cons_ne _ _ _ _ hk] at h
      rcases List.mem_cons.mp hp with h1 | h2
      · subst h1; exact hk
      · exact ih h _ h2

theorem alookup_filter_ne {β : Type} (k : String) (l : List (String × β)) :
    alookup k (l.filter (fun p => p.1 != k)) = none := by
  induction l with
  | nil => rfl
  | cons p rest ih =>
    by_cases hk : p.1 = k
    · simp [List.filter, hk, ih]
    · simp only [List.filter_cons]
      have : (p.1 != k) = true := by simp [hk]
      rw [if_pos this, show p = (p.1, p.2) from rfl, alookup_cons_ne _ _ _ _ hk]
      exact ih

/-! ## Lemmas about the reflection facility -/

theorem reflWF_initRefl : reflWF initRefl = true := by decide

theorem reflWF_bounds {s : ReflectionState} (hwf : reflWF s = true)
    {t : TypeName} {i : Nat} (h : alookup t s.ids = some i) :
    0 < i ∧ i < s.nextID := by
  have hmem := alookup_mem h
  simp only [reflWF, Bool.and_eq_true, List.all_eq_true] at hwf
  have := hwf.1.2 _ hmem
  simp only [Bool.and_eq_true, decide_eq_true_eq] at this
  exact this

theorem reflWF_nextID_pos {s : ReflectionState} (hwf : reflWF s = true) :
    0 < s.nextID := by
  simp only [reflWF, Bool.and_eq_true, decide_eq_true_eq] at hwf
  exact hwf.1.1

/-- In a table with pairwise-distinct keys and values, lookups at
distinct keys cannot return the same value. -/
theorem idsOK_inj {t1 t2 : TypeName} {i : Nat} :
    ∀ {l : List (TypeName × Nat)}, idsOK l = true →
      alookup t1 l = some i → alookup t2 l = some i → t1 = t2 := by
  intro l
  induction l with
  | nil => intro _ h1; simp [alookup] at h1
  | cons p rest ih =>
    intro hok h1 h2
    simp only [idsOK, Bool.and_eq_true, List.all_eq_true] at hok
    by_cases e1 : p.1 = t1 <;> by_cases e2 : p.1 = t2
    · rw [← e1, ← e2]
    · rw [show p = (p.1, p.2) from rfl, e1, alookup_cons_self] at h1
      cases h1
      rw [show p = (p.1, p.2) from rfl, alookup_cons_ne _ _ _ _ e2] at h2
      have hmem := alookup_mem h2
      have hcontra := hok.1 _ hmem
      simp at hcontra
    · rw [show p = (p.1, p.2) from rfl, e2, alookup_cons_self] at h2
      cases h2
      rw [show p = (p.1, p.2) from rfl, alookup_cons_ne _ _ _ _ e1] at h1
      have hmem := alookup_mem h1
      have hcontra := hok.1 _ hmem
      simp at hcontra
    · rw [show p = (p.1, p.2) from rfl, alookup_cons_ne _ _ _ _ e1] at h1
      rw [show p = (p.1, p.2) from rfl, alookup_cons_ne _ _ _ _ e2] at h2
      exact ih hok.2 h1 h2

theorem getTypeID_of_lookup_some {t : TypeName} {s : ReflectionState}
    {i : Nat} (h : alookup t s.ids = some i) : getTypeID t s = (i, s) := by
  simp [getTypeID, h]

theorem getTypeID_of_lookup_none {t : TypeName} {s : ReflectionState}
    (h : alookup t s.ids = none) :
    getTypeID t s = (s.nextID, ⟨s.nextID + 1, (t, s.nextID) :: s.ids⟩) := by
  simp [getTypeID, h]

/-- `getTypeID` is stable: a second call for the same type returns the
same id and leaves the reflection state unchanged. -/
theorem getTypeID_stable (t : TypeName) (s : ReflectionState) :
    getTypeID t (getTypeID t s).snd = ((getTypeID t s).fst, (getTypeID t s).snd) := by
  unfold getTypeID
  cases h : alookup t s.ids with
  | some i => simp [h]
  | none => simp [h]

/-- `getTypeID` never issues the sentinel id 0. -/
theorem getTypeID_ne_zero {s : ReflectionState} (hwf : reflWF s = true)
    (t : TypeName) : (getTypeID t s).fst ≠ 0 := by
  unfold getTypeID
  cases h : alookup t s.ids with
  | some i =>
    have := (reflWF_bounds hwf h).1
    simp only
    omega
  | none =>
    have := reflWF_nextID_pos hwf
    simp only
    omega

/-- `getTypeID` preserves well-formedness of the reflection state. -/
theorem reflWF_getTypeID {s : ReflectionState} (hwf : reflWF s = true)
    (t : TypeName) : reflWF (getTypeID t s).snd = true := by
  unfold getTypeID
  cases h : alookup t s.ids with
  | some i => simpa using hwf
  | none =>
    simp only [reflWF, Bool.and_eq_true, List.all_eq_true, decide_eq_true_eq] at hwf ⊢
    refine ⟨⟨by omega, ?_⟩, ?_⟩
    · intro p hp
      rcases List.mem_cons.mp hp with h1 | h2
      · subst h1
        exact ⟨hwf.1.1, Nat.lt_succ_self _⟩
      · have hb := hwf.1.2 _ h2
        exact ⟨hb.1, by omega⟩
    · simp only [idsOK, Bool.and_eq_true, List.all_eq_true]
      refine ⟨?_, hwf.2⟩
      intro q hq
      have hb := hwf.1.2 _ hq
      simp only [Bool.and_eq_true, bne_iff_ne, ne_eq]
      constructor
      · exact fun he => alookup_eq_none h _ hq he.symm
      · have : q.2 < s.nextID := hb.2
        omega

/-! ## Lemmas about the heap operations -/

theorem regWF_initSystem : regWF initSystem = true := by decide

@[simp] theorem modifyAt_length (f : Cell → Cell) :
    ∀ (n : Nat) (l : List Cell), (modifyAt f n l).length = l.length := by
  intro n
  induction n with
  | zero => intro l; cases l <;> simp [modifyAt]
  | succ m ih => intro l; cases l <;> simp [modifyAt, ih]

theorem modifyAt_getElem (f : Cell → Cell) :
    ∀ (n m : Nat) (l : List Cell),
      (modifyAt f n l)[m]? = if m = n then (l[n]?).map f else l[m]? := by
  intro n
  induction n with
  | zero =>
    intro m l
    cases l with
    | nil => simp [modifyAt]
    | cons c rest =>
      cases m with
      | zero => simp [modifyAt]
      | succ k => simp [modifyAt]
  | succ j ih =>
    intro m l
    cases l with
    | nil => simp [modifyAt]
    | cons c rest =>
      cases m with
      | zero => simp [modifyAt]
      | succ k =>
        simp only [modifyAt, List.getElem?_cons_succ]
        rw [ih k rest]
        by_cases hk : k = j <;> simp [hk]

theorem incRef_length (h : Nat) (heap : List Cell) :
    (incRef h heap).length = heap.length := by
  simp [incRef]

theorem getElem_incRef_state (h k : Nat) (heap : List Cell) :
    ((incRef h heap)[k]?).map (fun c => c.state) =
      (heap[k]?).map (fun c => c.state) := by
  unfold incRef
  rw [modifyAt_getElem]
  by_cases hk : k = h
  · subst hk
    cases heap[k]? <;> simp
  · simp [hk]

theorem getElem_decRef_state (h k : Nat) (heap : List Cell) :
    ((decRef h heap)[k]?).map (fun c => c.state) =
      (heap[k]?).map (fun c => c.state) := by
  unfold decRef
  rw [modifyAt_getElem]
  by_cases hk : k = h
  · subst hk
    cases heap[k]? <;> simp
  · simp [hk]

theorem getText_incRef (h k : Nat) (sys : ResourceSystem)
    (heap : List Cell) :
    getText k { sys with heap := incRef h heap } =
      getText k { sys with heap := heap } := by
  simp [getText, getElem_incRef_state]

/-! ## Lemmas about the registry operations -/

theorem existsRes_eq_false {name : String} {sys : ResourceSystem} :
    ResourceSystem.ExistsRes name sys = false ↔
      alookup name sys.instances = none := by
  unfold ResourceSystem.ExistsRes
  cases alookup name sys.instances <;> simp

/-- A successful `Create` leaves the returned handle stored in the
named-instance map under the requested name. -/
theorem create_publishes {env : Env} {t : TypeName} {name : String}
    {props : List Property} {sys sys1 : ResourceSystem} {h : Nat}
    (hc : ResourceSystem.Create env t name props sys = (some h, sys1)) :
    alookup name sys1.instances = some h := by
  unfold ResourceSystem.Create at hc
  cases hl : alookup name sys.instances with
  | some h0 =>
    rw [hl] at hc
    simp only [Prod.mk.injEq, Option.some.injEq] at hc
    obtain ⟨rfl, rfl⟩ := hc
    exact hl
  | none =>
    rw [hl] at hc
    cases he : env t props with
    | none => rw [he] at hc; simp at hc
    | some st =>
      rw [he] at hc
      simp only [Prod.mk.injEq, Option.some.injEq] at hc
      obtain ⟨rfl, rfl⟩ := hc
      exact alookup_cons_self _ _ _

/-! ## The claims -/

/-- C2.  Creation failure leaves no trace: when the name is absent (so
`Initialize` actually runs) and `Initialize` fails, `Create` returns
null, the registry state is unchanged, and `Exists(name)` is false
afterwards. -/
theorem create_failure_no_trace (env : Env) (t : TypeName) (name : String)
    (props : List Property) (sys : ResourceSystem)
    (habs : ResourceSystem.ExistsRes name sys = false)
    (hfail : env t props = none) :
    ResourceSystem.Create env t name props sys = (none, sys) ∧
    ResourceSystem.ExistsRes name
      (ResourceSystem.Create env t name props sys).snd = false := by
  have hl := existsRes_eq_false.mp habs
  have hres : ResourceSystem.Create env t name props sys = (none, sys) := by
    simp only [ResourceSystem.Create, hl, hfail]
  exact ⟨hres, by rw [hres]; exact habs⟩

/-- Witness for C2: the test `CreateNonExistent` — creating `"test"`
with `filename = "bad_test.txt"` in the registered test registry
returns null and publishes nothing. -/
theorem create_failure_no_trace_witness :
    ResourceSystem.Create testEnv "TextFile" "test" propsBad testSystem =
      (none, testSystem) ∧
    ResourceSystem.ExistsRes "test"
      (ResourceSystem.Create testEnv "TextFile" "test" propsBad testSystem).snd
      = false :=
  create_failure_no_trace testEnv "TextFile" "test" propsBad testSystem
    (by decide) (by decide)

/-- C3.  An id absent from the factory table (including the sentinel) is
rejected: the runtime-typed `Create` returns null with the registry
state untouched — so before any allocation or initialization attempt —
and a name absent before the call is still absent afterwards. -/
theorem createByID_unregistered (env : Env) (tid : Nat) (name : String)
    (props : List Property) (sys : ResourceSystem)
    (hfac : alookup tid sys.factories = none)
    (habs : ResourceSystem.ExistsRes name sys = false) :
    ResourceSystem.CreateByID env tid name props sys = (none, sys) ∧
    ResourceSystem.ExistsRes name
      (ResourceSystem.CreateByID env tid name props sys).snd = false := by
  have hres : ResourceSystem.CreateByID env tid name props sys = (none, sys) := by
    simp only [ResourceSystem.CreateByID, hfac]
  exact ⟨hres, by rw [hres]; exact habs⟩

/-- Witness for C3: the test `CreateInvalidType` — the sentinel id 0 is
not in the factory table of the test registry, so the runtime-typed
create of `"test"` fails and `"test"` stays absent. -/
theorem createByID_unregistered_witness :
    ResourceSystem.CreateByID testEnv 0 "test" propsGood testSystem =
      (none, testSystem) ∧
    ResourceSystem.ExistsRes "test"
      (ResourceSystem.CreateByID testEnv 0 "test" propsGood testSystem).snd
      = false :=
  createByID_unregistered testEnv 0 "test" propsGood testSystem
    (by decide) (by decide)

/-- C5.  Remove-then-absent: after `Remove(name)` the entry is gone, so
`Exists(name)` is false; and removing an absent name is a no-op that
leaves the registry state unchanged. -/
theorem remove_then_absent (name : String) (sys : ResourceSystem) :
    ResourceSystem.ExistsRes name (ResourceSystem.Remove name sys) = false ∧
    (ResourceSystem.ExistsRes name sys = false →
      ResourceSystem.Remove name sys = sys) := by
  constructor
  · cases hl : alookup name sys.instances with
    | none =>
      simp only [ResourceSystem.Remove, hl]
      exact existsRes_eq_false.mpr hl
    | some h =>
      simp only [ResourceSystem.Remove, hl]
      exact existsRes_eq_false.mpr (alookup_filter_ne _ _)
  · intro habs
    have hl := existsRes_eq_false.mp habs
    simp only [ResourceSystem.Remove, hl]

/-- Witness for C5: the test `Remove` — removing `"test"` from the
post-create registry leaves it absent, and removing it again (from the
post-register registry, where it is absent) changes nothing. -/
theorem remove_then_absent_witness :
    ResourceSystem.ExistsRes "test"
      (ResourceSystem.Remove "test" testSystem1) = false ∧
    ResourceSystem.Remove "test" testSystem = testSystem :=
  ⟨(remove_then_absent "test" testSystem1).1,
   (remove_then_absent "test" testSystem).2 (by decide)⟩

/-- C1.  Create is idempotent per name: after a successful
`Create(name, propsA)` returning handle `h`, a second
`Create(name, propsB)` — even with different properties — returns the
same handle `h`, constructs nothing (the heap does not grow), leaves
the named-instance map unchanged, and does not re-initialize the stored
resource (its state is unchanged). -/
theorem create_idempotent_by_name (env : Env) (t : TypeName) (name : String)
    (propsA propsB : List Property) (sys sys1 : ResourceSystem) (h : Nat)
    (h1 : ResourceSystem.Create env t name propsA sys = (some h, sys1)) :
    (ResourceSystem.Create env t name propsB sys1).fst = some h ∧
    (ResourceSystem.Create env t name propsB sys1).snd.heap.length =
      sys1.heap.length ∧
    (ResourceSystem.Create env t name propsB sys1).snd.instances =
      sys1.instances ∧
    getText h (ResourceSystem.Create env t name propsB sys1).snd =
      getText h sys1 := by
  have hl := create_publishes h1
  have hred : ResourceSystem.Create env t name propsB sys1 =
      (some h, { sys1 with heap := incRef h sys1.heap }) := by
    simp only [ResourceSystem.Create, hl]
  rw [hred]
  exact ⟨rfl, incRef_length h sys1.heap, rfl, getText_incRef h h sys1 sys1.heap⟩

/-- Witness for C1: the test `CreateAlreadyCreated` — a second create of
`"test"`, here even with the differing property list `propsBad`,
returns the handle of the first create and changes neither the map nor
the stored text. -/
theorem create_idempotent_by_name_witness :
    (ResourceSystem.Create testEnv "TextFile" "test" propsBad testSystem1).fst
      = some 0 ∧
    (ResourceSystem.Create testEnv "TextFile" "test" propsBad
        testSystem1).snd.heap.length = testSystem1.heap.length ∧
    (ResourceSystem.Create testEnv "TextFile" "test" propsBad
        testSystem1).snd.instances = testSystem1.instances ∧
    getText 0 (ResourceSystem.Create testEnv "TextFile" "test" propsBad
        testSystem1).snd = getText 0 testSystem1 :=
  create_idempotent_by_name testEnv "TextFile" "test" propsGood propsBad
    testSystem testSystem1 0 (by decide)

/-- C4.  Create-then-exists: after a successful `Create(name, props)`
returning handle `h`, `Exists(name)` is true and `Get(name)` returns the
very same handle `h`; and `Get` itself never constructs — on an absent
name it returns null and leaves the registry untouched, and on any
lookup it neither adds a map entry nor allocates a cell. -/
theorem create_then_exists (env : Env) (t : TypeName) (name : String)
    (props : List Property) (sys sys1 : ResourceSystem) (h : Nat)
    (h1 : ResourceSystem.Create env t name props sys = (some h, sys1)) :
    ResourceSystem.ExistsRes name sys1 = true ∧
    (ResourceSystem.Get name sys1).fst = some h ∧
    (∀ (nm : String) (s : ResourceSystem),
      ResourceSystem.ExistsRes nm s = false →
        ResourceSystem.Get nm s = (none, s)) ∧
    (∀ (nm : String) (s : ResourceSystem),
      (ResourceSystem.Get nm s).snd.instances = s.instances ∧
      (ResourceSystem.Get nm s).snd.heap.length = s.heap.length) := by
  have hl := create_publishes h1
  refine ⟨?_, ?_, ?_, ?_⟩
  · simp [ResourceSystem.ExistsRes, hl]
  · simp [ResourceSystem.Get, hl]
  · intro nm s habs
    have := existsRes_eq_false.mp habs
    simp [ResourceSystem.Get, this]
  · intro nm s
    cases hg : alookup nm s.instances with
    | none => simp [ResourceSystem.Get, hg]
    | some k => simp [ResourceSystem.Get, hg, incRef_length]

/-- Witness for C4: the tests `CreateCompileTime` and `Exists` — after
creating `"test"` in the test registry, `Exists("test")` holds and
`Get("test")` returns the created handle; `Get` of the absent name
`"other"` returns null and leaves the registry unchanged. -/
theorem create_then_exists_witness :
    ResourceSystem.ExistsRes "test" testSystem1 = true ∧
    (ResourceSystem.Get "test" testSystem1).fst = some 0 ∧
    ResourceSystem.Get "other" testSystem1 = (none, testSystem1) ∧
    (ResourceSystem.Get "other" testSystem1).snd.instances =
      testSystem1.instances := by
  have hmain := create_then_exists testEnv "TextFile" "test" propsGood
    testSystem testSystem1 0 (by decide)
  exact ⟨hmain.1, hmain.2.1, hmain.2.2.1 "other" testSystem1 (by decide),
    (hmain.2.2.2 "other" testSystem1).1⟩

/-- C6.  The runtime-typed path refines the compile-time path: when the
factory table maps `T`'s type id (as issued by `GetTypeID<T>()`) to `T`,
the runtime-typed `Create(typeId, name, props)` is exactly the
compile-time `Create<T>(name, props)`: same result handle and same
resulting registry state. -/
theorem createByID_refines_create (env : Env) (t : TypeName) (name : String)
    (props : List Property) (sys : ResourceSystem)
    (hreg : alookup (getTypeID t sys.refl).fst sys.factories = some t) :
    ResourceSystem.CreateByID env (getTypeID t sys.refl).fst name props sys =
      ResourceSystem.Create env t name props sys := by
  simp only [ResourceSystem.CreateByID, hreg]

/-- Witness for C6: the test `CreateRunTime` — in the registered test
registry, the runtime-typed create of `"test"` through
`GetTypeID<TextFile>()` coincides with the compile-time create. -/
theorem createByID_refines_create_witness :
    ResourceSystem.CreateByID testEnv
        (getTypeID "TextFile" testSystem.refl).fst "test" propsGood
        testSystem =
      ResourceSystem.Create testEnv "TextFile" "test" propsGood testSystem :=
  createByID_refines_create testEnv "TextFile" "test" propsGood testSystem
    (by decide)

/-- C7.  Type-tag stability and injectivity: within one run,
`GetTypeID<T>()` returns the same id on every call (a repeated call is a
pure read), distinct types receive distinct ids (the first call made on
the state left by the other type's call), and distinct types have
distinct names. -/
theorem typeTag_stable_and_injective (t t1 t2 : TypeName)
    (s : ReflectionState) (hwf : reflWF s = true) (hne : t1 ≠ t2) :
    getTypeID t (getTypeID t s).snd =
      ((getTypeID t s).fst, (getTypeID t s).snd) ∧
    (getTypeID t1 s).fst ≠ (getTypeID t2 (getTypeID t1 s).snd).fst ∧
    getTypeName t1 ≠ getTypeName t2 := by
  have hok : idsOK s.ids = true := by
    simp only [reflWF, Bool.and_eq_true] at hwf
    exact hwf.2
  refine ⟨getTypeID_stable t s, ?_, hne⟩
  cases h1 : alookup t1 s.ids with
  | some i1 =>
    rw [getTypeID_of_lookup_some h1]
    dsimp only
    cases h2 : alookup t2 s.ids with
    | some i2 =>
      rw [getTypeID_of_lookup_some h2]
      dsimp only
      intro he
      exact hne (idsOK_inj hok h1 (he ▸ h2))
    | none =>
      rw [getTypeID_of_lookup_none h2]
      dsimp only
      have hb := (reflWF_bounds hwf h1).2
      omega
  | none =>
    rw [getTypeID_of_lookup_none h1]
    dsimp only
    have hcons : alookup t2 ((t1, s.nextID) :: s.ids) = alookup t2 s.ids :=
      alookup_cons_ne _ _ _ _ hne
    cases h2 : alookup t2 s.ids with
    | some i2 =>
      rw [getTypeID_of_lookup_some
        (show alookup t2
            (⟨s.nextID + 1, (t1, s.nextID) :: s.ids⟩ : ReflectionState).ids =
          some i2 from hcons.trans h2)]
      dsimp only
      have hb := (reflWF_bounds hwf h2).2
      omega
    | none =>
      rw [getTypeID_of_lookup_none
        (show alookup t2
            (⟨s.nextID + 1, (t1, s.nextID) :: s.ids⟩ : ReflectionState).ids =
          none from hcons.trans h2)]
      dsimp only
      omega

/-- Witness for C7: the test `Register` fixture — in the fresh process
state, `TextFile` and a second type `Shader` receive the ids 1 and 2,
stable under repetition, and their names differ. -/
theorem typeTag_stable_and_injective_witness :
    getTypeID "TextFile" (getTypeID "TextFile" initRefl).snd =
      ((getTypeID "TextFile" initRefl).fst,
        (getTypeID "TextFile" initRefl).snd) ∧
    (getTypeID "TextFile" initRefl).fst ≠
      (getTypeID "Shader" (getTypeID "TextFile" initRefl).snd).fst ∧
    getTypeName "TextFile" ≠ getTypeName "Shader" :=
  typeTag_stable_and_injective "TextFile" "TextFile" "Shader" initRefl
    (by decide) (by decide)

/-- C8.  Registration is idempotent: a second `Register<T>()` changes
nothing — no second factory entry, no state change at all — and after
registration, `GetTypeIDFromName(GetTypeName<T>())` equals
`GetTypeID<T>()`. -/
theorem register_idempotent (t : TypeName) (sys : ResourceSystem)
    (hwf : regWF sys = true) :
    ResourceSystem.Register t (ResourceSystem.Register t sys) =
      ResourceSystem.Register t sys ∧
    ResourceSystem.GetTypeIDFromName (getTypeName t)
        (ResourceSystem.Register t sys) =
      (getTypeID t (ResourceSystem.Register t sys).refl).fst := by
  simp only [regWF, Bool.and_eq_true, List.all_eq_true, beq_iff_eq] at hwf
  obtain ⟨hrwf, hfac⟩ := hwf
  have hok : idsOK sys.refl.ids = true := by
    have h := hrwf
    simp only [reflWF, Bool.and_eq_true] at h
    exact h.2
  cases h1 : alookup t sys.refl.ids with
  | some i =>
    have e1 := getTypeID_of_lookup_some h1
    cases hf : alookup i sys.factories with
    | some n =>
      -- the factory entry keyed `i` is in fact `(i, t)`
      have hn : n = t := by
        have hmem := alookup_mem hf
        have hlook := hfac _ hmem
        exact idsOK_inj hok hlook h1
      rw [hn] at hf
      have hreg : ResourceSystem.Register t sys = sys := by
        simp [ResourceSystem.Register, e1, hf]
      rw [hreg]
      refine ⟨hreg, ?_⟩
      rw [e1]
      unfold ResourceSystem.GetTypeIDFromName getTypeName
      cases hfind : sys.factories.find? (fun p => p.2 == t) with
      | none =>
        exfalso
        have hmem := alookup_mem hf
        have := List.find?_eq_none.mp hfind _ hmem
        simp at this
      | some q =>
        have hq2 : q.2 = t := by
          have := List.find?_some hfind
          simpa using this
        have hqmem := List.mem_of_find?_eq_some hfind
        have hql := hfac _ hqmem
        rw [hq2, h1] at hql
        simpa using hql.symm
    | none =>
      have hreg : ResourceSystem.Register t sys =
          { sys with factories := (i, t) :: sys.factories } := by
        simp [ResourceSystem.Register, e1, hf]
      rw [hreg]
      constructor
      · simp [ResourceSystem.Register, e1]
      · unfold ResourceSystem.GetTypeIDFromName getTypeName
        rw [List.find?_cons_of_pos _ (by simp)]
        rw [show ({ sys with factories := (i, t) :: sys.factories} :
            ResourceSystem).refl = sys.refl from rfl, e1]
  | none =>
    have e1 := getTypeID_of_lookup_none h1
    have hf : alookup sys.refl.nextID sys.factories = none := by
      cases hf2 : alookup sys.refl.nextID sys.factories with
      | none => rfl
      | some n =>
        exfalso
        have hmem := alookup_mem hf2
        have hlook := hfac _ hmem
        have hb := (reflWF_bounds hrwf hlook).2
        omega
    have hreg : ResourceSystem.Register t sys =
        { sys with
          refl := ⟨sys.refl.nextID + 1, (t, sys.refl.nextID) :: sys.refl.ids⟩,
          factories := (sys.refl.nextID, t) :: sys.factories } := by
      simp [ResourceSystem.Register, e1, hf]
    rw [hreg]
    have e2 : getTypeID t
        (⟨sys.refl.nextID + 1, (t, sys.refl.nextID) :: sys.refl.ids⟩ :
          ReflectionState) =
        (sys.refl.nextID,
          ⟨sys.refl.nextID + 1, (t, sys.refl.nextID) :: sys.refl.ids⟩) :=
      getTypeID_of_lookup_some
        (show alookup t
            (⟨sys.refl.nextID + 1, (t, sys.refl.nextID) :: sys.refl.ids⟩ :
              ReflectionState).ids = some sys.refl.nextID from
          alookup_cons_self _ _ _)
    constructor
    · simp [ResourceSystem.Register, e2]
    · unfold ResourceSystem.GetTypeIDFromName getTypeName
      rw [List.find?_cons_of_pos _ (by simp)]
      simp [e2]

/-- Witness for C8: the test `Register` — registering `TextFile` twice
in the fresh registry is a no-op the second time, and
`GetTypeIDFromName(GetTypeName<TextFile>())` returns
`GetTypeID<TextFile>()`. -/
theorem register_idempotent_witness :
    ResourceSystem.Register "TextFile"
        (ResourceSystem.Register "TextFile" initSystem) =
      ResourceSystem.Register "TextFile" initSystem ∧
    ResourceSystem.GetTypeIDFromName (getTypeName "TextFile")
        (ResourceSystem.Register "TextFile" initSystem) =
      (getTypeID "TextFile"
        (ResourceSystem.Register "TextFile" initSystem).refl).fst :=
  register_idempotent "TextFile" initSystem (by decide)

/-- Taking a strong reference and then dropping one on the same cell
leaves the cell exactly as it was. -/
theorem getElem_decRef_incRef_self (h : Nat) (heap : List Cell) (c : Cell)
    (hc : heap[h]? = some c) :
    (decRef h (incRef h heap))[h]? = some c := by
  obtain ⟨rc, st⟩ := c
  unfold decRef incRef
  rw [modifyAt_getElem, if_pos rfl, modifyAt_getElem, if_pos rfl, hc]
  simp

/-- C9.  Ownership survives external release and handles alias one
object: after `Add(name, h)` publishes the caller's live handle and the
caller drops its own reference, the name still exists, `Get(name)`
returns the very same handle `h` (both handles refer to one underlying
object), the object is still alive (the registry's strong reference
keeps it), its state is unchanged, and a mutation through the shared
handle is visible through it — `GetText` after `AppendText` sees the
appended text. -/
theorem add_ownership_and_aliasing (name : String) (h : Nat)
    (sys sys2 : ResourceSystem) (c : Cell) (str : String)
    (hcell : sys.heap[h]? = some c)
    (halive : 0 < c.refCount)
    (hsys2 : sys2 = releaseHandle h (ResourceSystem.Add name h sys)) :
    ResourceSystem.ExistsRes name sys2 = true ∧
    (ResourceSystem.Get name sys2).fst = some h ∧
    cellAlive h sys2 = true ∧
    getText h sys2 = some c.state ∧
    getText h (appendText h str sys2) = some (c.state ++ str) := by
  subst hsys2
  have hh : (decRef h (incRef h sys.heap))[h]? = some c :=
    getElem_decRef_incRef_self h sys.heap c hcell
  refine ⟨?_, ?_, ?_, ?_, ?_⟩
  · simp [ResourceSystem.ExistsRes, releaseHandle, ResourceSystem.Add]
  · simp [ResourceSystem.Get, releaseHandle, ResourceSystem.Add]
  · simp [cellAlive, releaseHandle, ResourceSystem.Add, hh, halive]
  · simp [getText, releaseHandle, ResourceSystem.Add, hh]
  · simp [getText, appendText, releaseHandle, ResourceSystem.Add,
      modifyAt_getElem, hh]

/-- Witness for C9: the tests `AddFromMemory` and `ModifyInMemory` —
after adding the in-memory file under `"test"` and resetting the
caller's handle, `"test"` still exists, `Get` returns the same handle,
the file is alive with its text unchanged, and appending `"?"` through
the handle is visible when reading back. -/
theorem add_ownership_and_aliasing_witness :
    ResourceSystem.ExistsRes "test" memSystem2 = true ∧
    (ResourceSystem.Get "test" memSystem2).fst = some 0 ∧
    cellAlive 0 memSystem2 = true ∧
    getText 0 memSystem2 = some addedFile.state ∧
    getText 0 (appendText 0 "?" memSystem2) =
      some (addedFile.state ++ "?") :=
  add_ownership_and_aliasing "test" 0 memSystem memSystem2 addedFile "?"
    (by decide) (by decide) (by decide)

/-- C10.  The sentinel invalid type id is 0: the type-id assignment
never issues 0 to any type, and for every name and property sequence
the runtime-typed `Create(0, name, props)` fails, returning null with
the registry unchanged. -/
theorem sentinel_zero_rejected (env : Env) (name : String)
    (props : List Property) (sys : ResourceSystem) (s : ReflectionState)
    (t : TypeName) (hwf : regWF sys = true) (hs : reflWF s = true) :
    (getTypeID t s).fst ≠ 0 ∧
    ResourceSystem.CreateByID env 0 name props sys = (none, sys) := by
  refine ⟨getTypeID_ne_zero hs t, ?_⟩
  simp only [regWF, Bool.and_eq_true, List.all_eq_true, beq_iff_eq] at hwf
  obtain ⟨hrwf, hfac⟩ := hwf
  have hf : alookup 0 sys.factories = none := by
    cases hf2 : alookup 0 sys.factories with
    | none => rfl
    | some n =>
      exfalso
      have hmem := alookup_mem hf2
      have hlook := hfac _ hmem
      have hb := (reflWF_bounds hrwf hlook).1
      omega
  simp only [ResourceSystem.CreateByID, hf]

/-- Witness for C10: the test `CreateInvalidType` — in the registered
test registry (whose reflection state has issued the id of `TextFile`),
no type carries the id 0 and `Create(0, "test", propsGood)` returns
null leaving the registry unchanged. -/
theorem sentinel_zero_rejected_witness :
    (getTypeID "Shader" testSystem.refl).fst ≠ 0 ∧
    ResourceSystem.CreateByID testEnv 0 "test" propsGood testSystem =
      (none, testSystem) :=
  sentinel_zero_rejected testEnv "test" propsGood testSystem
    testSystem.refl "Shader" (by decide) (by decide)

end Trillek
